import Mathlib

/-!
Verification of the Aristo multi-stage agent pipeline
(query refinement → retrieval → synthesis → report generation).

The Python sources under `src/agents/` are shallowly embedded below:
Python's dynamic values become the inductive `PyVal`, exceptions become
`Except String`, and the external capabilities (generative model calls,
`json.loads`, the embedding model and the vector store client) become
explicit functional parameters collected in `Env`, so that the pipeline
is a pure function of the query and the environment.
-/

/-- A dynamic Python value, as far as the pipeline manipulates them:
`None`, booleans, integers, (finite) floats modelled as rationals,
strings, lists and string-keyed dicts. -/
inductive PyVal where
  | none
  | bool (b : Bool)
  | int (n : Int)
  | float (q : ℚ)
  | str (s : String)
  | list (xs : List PyVal)
  | dict (kvs : List (String × PyVal))

/-- `d.get(k)` on a Python dict (association list, first binding wins):
`some v` when the key is present — even when the bound value is `None` —
and `none` when the key is absent. -/
def dictGet (kvs : List (String × PyVal)) (k : String) : Option PyVal :=
  (kvs.find? (fun kv => kv.1 = k)).map (fun kv => kv.2)

/-- `d[k] = v` on a Python dict: overwrite the binding if present, else append. -/
def dictSet (kvs : List (String × PyVal)) (k : String) (v : PyVal) : List (String × PyVal) :=
  if (kvs.find? (fun kv => kv.1 = k)).isSome then
    kvs.map (fun kv => if kv.1 = k then (k, v) else kv)
  else kvs ++ [(k, v)]

/-- Python truthiness, used by `state.refined_query or state.query`. -/
def pyTruthy : PyVal → Bool
  | .none => false
  | .bool b => b
  | .int n => n ≠ 0
  | .float q => q ≠ 0
  | .str s => s ≠ ""
  | .list xs => !xs.isEmpty
  | .dict kvs => !kvs.isEmpty

/-- Is this value a Python mapping (dict)? -/
def PyVal.isDict : PyVal → Bool
  | .dict _ => true
  | _ => false

/-- Is this value a (finite) Python float? -/
def PyVal.isFloat : PyVal → Bool
  | .float _ => true
  | _ => false

/-- `str(v)` as used by f-string interpolation; the exact rendering of
floats, lists and dicts is immaterial to every claim below. -/
def pyStr : PyVal → String
  | .none => "None"
  | .bool true => "True"
  | .bool false => "False"
  | .int n => toString n
  | .float q => toString q
  | .str s => s
  | .list _ => "[...]"
  | .dict _ => "\x7b...\x7d"

mutual

/-- All string leaves (dict keys included) occurring inside a value:
used to make "the returned value carries this text" precise. -/
def strLeaves : PyVal → List String
  | .str t => [t]
  | .list xs => strLeavesList xs
  | .dict kvs => strLeavesDict kvs
  | _ => []

def strLeavesList : List PyVal → List String
  | [] => []
  | v :: vs => strLeaves v ++ strLeavesList vs

def strLeavesDict : List (String × PyVal) → List String
  | [] => []
  | (k, v) :: kvs => k :: (strLeaves v ++ strLeavesDict kvs)

end

/-- The canonical retrieval record built by `RetrieverAgent.get_chunks`:
the Python dict `\x7b"id": ..., "score": ..., "payload": ...\x7d`. -/
structure Chunk where
  id : PyVal
  score : PyVal
  payload : PyVal

/-- An attribute-bearing point object (e.g. Qdrant `ScoredPoint`):
each field is `some v` when the attribute exists (possibly bound to
`None`) and `none` when `getattr` would fall back to its default. -/
structure PyObj where
  idAttr : Option PyVal
  scoreAttr : Option PyVal
  payloadAttr : Option PyVal

/-- One item of the backend's point collection, in the shapes
`RetrieverAgent.get_chunks` dispatches on: attribute-bearing record,
mapping, positional tuple, or anything else. -/
inductive Point where
  | obj (o : PyObj)
  | dict (kvs : List (String × PyVal))
  | tup (xs : List PyVal)
  | other

/-- The raw response of `client.query_points`, in the shapes the code
dispatches on: a tuple (of point collections), an object exposing a
`.points` attribute, a plain list, or an unrecognized shape. -/
inductive QueryResponse where
  | tupleResp (elems : List (List Point))
  | objResp (points : List Point)
  | listResp (points : List Point)
  | otherResp

namespace RetrieverAgent

/-- Is the point of a shape the per-item dispatch recognizes?
(`hasattr(point, 'id')`, `isinstance(point, dict)`, `isinstance(point, tuple)`;
anything else is skipped with `continue`.) -/
def recognizedPoint : Point → Bool
  | .obj o => o.idAttr.isSome
  | .dict _ => true
  | .tup _ => true
  | .other => false

/-- The chunk a recognized point at enumerate-index `idx` is converted to,
mirroring the three branches of `get_chunks` exactly: attribute reads via
`getattr(point, a, default)`, dict reads via `point.get(k, default)`, and
positional tuple reads guarded by `len(point)`. For `Point.other` (skipped
by the code) the result is irrelevant; a dummy is returned. -/
def chunkOf (idx : Nat) : Point → Chunk
  | .obj o =>
      { id := o.idAttr.getD .none,
        score := o.scoreAttr.getD (.float 0),
        payload := o.payloadAttr.getD (.dict []) }
  | .dict kvs =>
      { id := (dictGet kvs "id").getD (.int idx),
        score := (dictGet kvs "score").getD (.float 0),
        payload := (dictGet kvs "payload").getD (.dict []) }
  | .tup xs =>
      { id := if 0 < xs.length then xs.getD 0 .none else .int idx,
        score := if 1 < xs.length then xs.getD 1 .none else .float 0,
        payload := if 2 < xs.length then xs.getD 2 .none else .dict [] }
  | .other => { id := .none, score := .none, payload := .none }

/-- One iteration of the `for idx, point in enumerate(points_list)` loop:
`some chunk` when the point is appended, `none` when it is skipped. -/
def normalizePoint (idx : Nat) (p : Point) : Option Chunk :=
  if recognizedPoint p then some (chunkOf idx p) else none

/-- The point collection resolved from the raw response, dispatching on
its shape in the order of the code: tuple → first element (`[]` when the
tuple is empty), object with `.points` → that attribute, list → itself,
otherwise → `[]`. -/
def resolvePoints : QueryResponse → List Point
  | .tupleResp elems => elems.headD []
  | .objResp points => points
  | .listResp points => points
  | .otherResp => []

/-- The `for idx, point in enumerate(points_list)` loop, carrying the
running enumerate index: recognized points are appended, the rest hit
`continue`. -/
def normalizeLoop : Nat → List Point → List Chunk
  | _, [] => []
  | idx, p :: rest =>
    match normalizePoint idx p with
    | some c => c :: normalizeLoop (idx + 1) rest
    | none => normalizeLoop (idx + 1) rest

/-- The enumerate loop over a resolved point collection, from index 0. -/
def normalizePts (points : List Point) : List Chunk :=
  normalizeLoop 0 points

/-- The whole normalization performed by `get_chunks` on a backend
response that was returned without raising. -/
def normalizeResponse (r : QueryResponse) : List Chunk :=
  normalizePts (resolvePoints r)

end RetrieverAgent

/-- A generative-model capability: `llm.ainvoke(prompt)` returning the
response text (`.content` already a stripped-ready string) or raising. -/
def LLMCap : Type := String → Except String String

/-- `json.loads`: strict structural parse of a text into a value, or an
exception message. Modelled as an opaque functional capability (it is
the Python standard library, not repository code). -/
def JsonCap : Type := String → Except String PyVal

/-- An embedding vector (`model.encode`); its element type is irrelevant
to every claim. -/
def Emb : Type := List Int

/-- The external capabilities the pipeline consumes (§6 of the spec):
one generative model per stage, `json.loads`, the embedding model and
the vector-store client. A "deterministic model stub and unchanged
store" is one fixed value of this structure. -/
structure Env where
  refinerLLM : LLMCap
  synthLLM : LLMCap
  reporterLLM : LLMCap
  jsonLoads : JsonCap
  encode : PyVal → Except String Emb
  queryPoints : String → Emb → Nat → Except String QueryResponse

/-- The shared request state (`agents/state.py` dataclass `AgentState`),
with the dataclass defaults. Fields that Python annotates loosely and
that stage code can set to arbitrary parsed values are `PyVal`. -/
structure AgentState where
  query : String
  sender : String := "user"
  receiver : String := ""
  refined_query : PyVal := .none
  query_intent : PyVal := .none
  query_complexity : PyVal := .none
  requires_multi_hop : PyVal := .bool false
  retrieved_chunks : List Chunk := []
  synthesized_response : PyVal := .none
  final_report : PyVal := .none
  metadata : List (String × PyVal) := []

namespace QueryRefinerAgent

/-- The refinement prompt of `analyze_query` (braces of the JSON template
escaped; the model capability is applied to it as an opaque key). -/
def refinerPrompt (query : String) : String :=
  "Analyze this query and provide structured insights:\n\nQuery: " ++ query ++
  "\n\nProvide:\n1. Intent: What is the user trying to achieve? (understand/compare/analyze/create/troubleshoot)\n" ++
  "2. Complexity: Simple/Medium/Complex\n" ++
  "3. RequiresMultiHop: Does this need information from multiple sources? (yes/no)\n" ++
  "4. KeyConcepts: List 3-5 key concepts to search for\n" ++
  "5. RefinedQuery: An improved version optimized for retrieval\n\n" ++
  "Return ONLY valid JSON:\n\x7b\n    \"intent\": \"...\",\n    \"complexity\": \"...\",\n" ++
  "    \"requires_multi_hop\": true/false,\n    \"key_concepts\": [\"...\", \"...\"],\n" ++
  "    \"refined_query\": \"...\"\n\x7d"

/-- The markdown-fence stripping done inside the `try` of `analyze_query`
(and, identically, of `ReasoningAgent.reason`): if "```json" occurs, take
what stands between it and the next fence; else if "```" occurs, take what
stands between the first and second fence; else keep the text unchanged. -/
def extractFence (content : String) : String :=
  match content.splitOn "```json" with
  | _ :: afterTag :: _ => ((afterTag.splitOn "```").headD "").trim
  | _ =>
    match content.splitOn "```" with
    | _ :: afterTag :: _ => ((afterTag.splitOn "```").headD "").trim
    | _ => content

/-- The fallback mapping returned by the `except` branch of
`analyze_query` when parsing fails. -/
def fallbackAnalysis (query : String) : PyVal :=
  .dict [("intent", .str "understand"), ("complexity", .str "medium"),
         ("requires_multi_hop", .bool false), ("key_concepts", .list [.str query]),
         ("refined_query", .str query)]

/-- `QueryRefinerAgent.analyze_query`: one model call (outside the `try`,
so a model exception propagates), then fence stripping and `json.loads`
inside a `try` whose `except` returns the fallback mapping. -/
def analyze_query (llm : LLMCap) (loads : JsonCap) (query : String) : Except String PyVal := do
  let response ← llm (refinerPrompt query)
  let content := response.trim
  match loads (extractFence content) with
  | .ok analysis => pure analysis
  | .error _ => pure (fallbackAnalysis query)

/-- `QueryRefinerAgent.execute`: populate the refinement fields from the
analysis mapping via `analysis.get(key, default)`. When `json.loads`
produced a non-mapping, `.get` raises `AttributeError`. -/
def execute (llm : LLMCap) (loads : JsonCap) (st : AgentState) : Except String AgentState := do
  let analysis ← analyze_query llm loads st.query
  match analysis with
  | .dict kvs =>
      pure { st with
        refined_query := (dictGet kvs "refined_query").getD (.str st.query),
        query_intent := (dictGet kvs "intent").getD (.str "understand"),
        query_complexity := (dictGet kvs "complexity").getD (.str "medium"),
        requires_multi_hop := (dictGet kvs "requires_multi_hop").getD (.bool false),
        metadata := dictSet st.metadata "key_concepts" ((dictGet kvs "key_concepts").getD (.list [])) }
  | _ => Except.error "AttributeError: object has no attribute get"

end QueryRefinerAgent

namespace RetrieverAgent

/-- The body of the outer `try` of `get_chunks`: encode the query, call
`client.query_points(collection_name="document", query=..., limit=5)`,
then normalize the response. An exception from either capability is the
`.error` case. -/
def rawChunks (env : Env) (query : PyVal) : Except String (List Chunk) := do
  let emb ← env.encode query
  let response ← env.queryPoints "document" emb 5
  pure (normalizeResponse response)

/-- `RetrieverAgent.get_chunks`: the `except` branch turns any failure of
the encode/store call into the empty list. -/
def get_chunks (env : Env) (query : PyVal) : List Chunk :=
  match rawChunks env query with
  | .ok chunks => chunks
  | .error _ => []

/-- `state.refined_query or state.query` with Python truthiness. -/
def queryToUse (st : AgentState) : PyVal :=
  if pyTruthy st.refined_query then st.refined_query else .str st.query

/-- `RetrieverAgent.execute`. Its body cannot raise in this model
(`get_chunks` absorbs every failure), so the outer `try/except` of the
source (which would set `retrieved_chunks = []` and return) is
unreachable and `execute` is a total function on states. -/
def execute (env : Env) (st : AgentState) : AgentState :=
  let raw := get_chunks env (queryToUse st)
  { st with retrieved_chunks := raw, sender := "retriever", receiver := "synthesizer" }

end RetrieverAgent

namespace SynthesizerAgent

/-- `chunk.get("payload", \x7b\x7d).get("content")`: the chunks built by
the normalizer always carry the "payload" key, so the first `.get` yields
the payload value itself; the second `.get` requires it to be a mapping
and raises `AttributeError` otherwise (in particular on `None`). -/
def payloadContent (c : Chunk) : Except String PyVal :=
  match c.payload with
  | .dict kvs => pure ((dictGet kvs "content").getD .none)
  | _ => Except.error "AttributeError: object has no attribute get"

/-- The `for idx, chunk in enumerate(chunks)` loop of `format_context`,
collecting `context_parts`; an `AttributeError` on any chunk aborts the
loop (and so the stage), exactly as in Python. -/
def formatLoop : Nat → List Chunk → Except String (List String)
  | _, [] => pure []
  | idx, c :: rest => do
    let text ← payloadContent c
    let parts ← formatLoop (idx + 1) rest
    pure (("Context[" ++ toString idx ++ "]:\n" ++ pyStr text) :: parts)

/-- `SynthesizerAgent.format_context`: concatenate each payload content
tagged with its position index, joined by blank lines. -/
def format_context (chunks : List Chunk) : Except String String :=
  (formatLoop 0 chunks).map (String.intercalate "\n\n")

/-- The synthesis prompt of `synthesize`. -/
def synthPrompt (context : String) (query : String) : String :=
  "\nYou are an analytical Research Assistant specializing in synthesizing information from multiple retrieved sources.\n" ++
  "Combine evidence from the provided context to form a coherent, factual, and technically accurate answer to the users query.\n" ++
  "Avoid speculation and clearly indicate any uncertainty or missing data.\n" ++
  "Context :" ++ context ++ "\nUser Query:" ++ query ++ "\nProvide a clear and concise answer"

/-- `SynthesizerAgent.synthesize`: format the context (may raise), then
one model call whose exception propagates. -/
def synthesize (llm : LLMCap) (query : String) (chunks : List Chunk) : Except String String := do
  let context ← format_context chunks
  llm (synthPrompt context query)

/-- `SynthesizerAgent.execute`. -/
def execute (llm : LLMCap) (st : AgentState) : Except String AgentState := do
  let response ← synthesize llm st.query st.retrieved_chunks
  pure { st with synthesized_response := .str response,
                 sender := "synthesizer", receiver := "reporter" }

end SynthesizerAgent

namespace ReporterAgent

/-- The report prompt of `generate_report`. -/
def reportPrompt (query : String) (synthesis : PyVal) : String :=
  "\n        You are a professional Technical Reporter.\n        \n        User Query: " ++ query ++
  "\n        Raw Synthesis: " ++ pyStr synthesis ++
  "\n        \n        Please format this into a clean, professional Markdown report.\n" ++
  "        1. Use clear headings.\n        2. If the synthesis mentions code, format it properly.\n" ++
  "        3. Include a \"Key Takeaways\" section at the top.\n        "

/-- `ReporterAgent.generate_report`: one model call; `metadata` is
accepted and unused, as in the source. -/
def generate_report (llm : LLMCap) (query : String) (synthesis : PyVal)
    (_metadata : List (String × PyVal)) : Except String String :=
  llm (reportPrompt query synthesis)

/-- `ReporterAgent.execute`. -/
def execute (llm : LLMCap) (st : AgentState) : Except String AgentState := do
  let report ← generate_report llm st.query st.synthesized_response st.metadata
  pure { st with final_report := .str report, sender := "reporter", receiver := "user" }

end ReporterAgent

namespace AgentOrchestrator

/-- The edges added in `build_graph`, verbatim. -/
def edges : List (String × String) :=
  [("START", "refine_query"), ("refine_query", "retrieve_data"),
   ("retrieve_data", "synthesize_data"), ("synthesize_data", "generate_report"),
   ("generate_report", "END")]

/-- The unique successor of a node in the compiled graph. -/
def nextNode (n : String) : Option String :=
  (edges.find? (fun e => e.1 = n)).map (fun e => e.2)

/-- The node sequence the compiled graph visits starting from `n`,
stopping at END (or when fuel runs out / no edge leaves the node). -/
def traceFrom : Nat → String → List String
  | 0, _ => []
  | fuel + 1, n =>
    match nextNode n with
    | some m => if m = "END" then [] else m :: traceFrom fuel m
    | none => []

/-- The stage execution order of one `graph.ainvoke` call. -/
def stageTrace : List String := traceFrom 8 "START"

/-- Dispatch a node name to the stage function `build_graph` bound to it. -/
def applyNode (env : Env) (node : String) (st : AgentState) : Except String AgentState :=
  if node = "refine_query" then QueryRefinerAgent.execute env.refinerLLM env.jsonLoads st
  else if node = "retrieve_data" then pure (RetrieverAgent.execute env st)
  else if node = "synthesize_data" then SynthesizerAgent.execute env.synthLLM st
  else if node = "generate_report" then ReporterAgent.execute env.reporterLLM st
  else Except.error ("unknown node " ++ node)

/-- `AgentState(query=query)`: the initial state built from the raw query
alone, all other fields at their dataclass defaults. -/
def initialState (query : String) : AgentState := { query := query }

/-- `graph.ainvoke`: thread the state through the visited nodes in order;
an unrecovered stage exception aborts the fold. -/
def runGraph (env : Env) (st : AgentState) : Except String AgentState :=
  stageTrace.foldlM (fun s n => applyNode env n s) st

/-- `AgentOrchestrator.run`. -/
def run (env : Env) (query : String) : Except String AgentState :=
  runGraph env (initialState query)

end AgentOrchestrator

namespace ReasoningAgent

/-- `f"\x7bscore:.2f\x7d"`: numeric values format, anything else raises
`TypeError` (the exact digits rendered are immaterial to every claim). -/
def formatScore : PyVal → Except String String
  | .int n => pure (toString n ++ ".00")
  | .float q => pure (toString q)
  | _ => Except.error "TypeError: unsupported format string passed"

/-- One entry of the reasoning context:
`[idx] Source: source (Score: score)` then the content, with the
`.get` defaults of the source (`""` for content, `"unknown"` for source,
`0.0` for score — though normalizer chunks always carry a score key). -/
def contextEntry (idx : Nat) (c : Chunk) : Except String String := do
  let payloadMap ←
    match c.payload with
    | .dict kvs => pure kvs
    | _ => Except.error "AttributeError: object has no attribute get"
  let content := (dictGet payloadMap "content").getD (.str "")
  let source := (dictGet payloadMap "source").getD (.str "unknown")
  let scoreTxt ← formatScore c.score
  pure ("[" ++ toString idx ++ "] Source: " ++ pyStr source ++ " (Score: " ++ scoreTxt ++ ")\n" ++ pyStr content)

/-- The reasoning prompt of `reason` (JSON-template braces escaped). -/
def reasoningPrompt (intent : String) (multiHop : Bool) (context : String) (query : String) : String :=
  "You are a reasoning engine that breaks down complex queries into logical steps.\n\n" ++
  "Query Intent: " ++ intent ++ "\nRequires Multi-Hop Reasoning: " ++ pyStr (.bool multiHop) ++
  "\n\nContext:\n" ++ context ++ "\n\nUser Query: " ++ query ++
  "\n\nPerform step-by-step reasoning:\n1. Identify what information is present in the context\n" ++
  "2. Identify what information is missing or unclear\n" ++
  "3. If multi-hop reasoning is needed, break down the logical steps\n" ++
  "4. Determine confidence in being able to answer the query (0-100%)\n\n" ++
  "Return ONLY valid JSON:\n\x7b ... \x7d"

/-- The fallback mapping returned by the `except` branch of `reason`. -/
def fallbackReasoning : PyVal :=
  .dict [("reasoning_steps", .list []), ("identified_gaps", .list []),
         ("can_answer", .bool true), ("confidence", .int 70),
         ("requires_additional_retrieval", .bool false)]

/-- The context-building loop of `reason`: one entry per chunk, an
exception aborting the loop. -/
def reasonLoop : Nat → List Chunk → Except String (List String)
  | _, [] => pure []
  | idx, c :: rest => do
    let entry ← contextEntry idx c
    let parts ← reasonLoop (idx + 1) rest
    pure (entry :: parts)

/-- `ReasoningAgent.reason`: build the context (may raise), one model call
(outside the `try`, exception propagates), then the same fence stripping
and `json.loads` as the refiner, with the canned fallback on failure. -/
def reason (llm : LLMCap) (loads : JsonCap) (query : String) (chunks : List Chunk)
    (intent : String) (multiHop : Bool) : Except String PyVal := do
  let context_parts ← reasonLoop 0 chunks
  let context := String.intercalate "\n\n" context_parts
  let response ← llm (reasoningPrompt intent multiHop context query)
  let content := response.trim
  match loads (QueryRefinerAgent.extractFence content) with
  | .ok r => pure r
  | .error _ => pure fallbackReasoning

end ReasoningAgent

/-! ## Helper lemmas shared across the verification -/

/-- Does an `Except` computation signal an exception? -/
def isErr {α : Type} : Except String α → Bool
  | .error _ => true
  | .ok _ => false

/-- The compiled graph visits exactly the four stage nodes, in the order
the edges wire them. -/
theorem stageTrace_eval :
    AgentOrchestrator.stageTrace =
      ["refine_query", "retrieve_data", "synthesize_data", "generate_report"] := by
  rfl

/-- `run` is the strict sequential composition of the four stage
functions applied to the initial state. -/
theorem run_eq_stages (env : Env) (q : String) :
    AgentOrchestrator.run env q = (do
      let s1 ← QueryRefinerAgent.execute env.refinerLLM env.jsonLoads
                 (AgentOrchestrator.initialState q)
      let s2 := RetrieverAgent.execute env s1
      let s3 ← SynthesizerAgent.execute env.synthLLM s2
      ReporterAgent.execute env.reporterLLM s3) := by
  show (QueryRefinerAgent.execute env.refinerLLM env.jsonLoads
          (AgentOrchestrator.initialState q) >>= fun s1 =>
        pure (RetrieverAgent.execute env s1) >>= fun s2 =>
        SynthesizerAgent.execute env.synthLLM s2 >>= fun s3 =>
        ReporterAgent.execute env.reporterLLM s3 >>= fun s4 =>
        (pure s4 : Except String AgentState)) = _
  simp only [pure_bind, bind_pure]

/-- C7: For every query string, `Orchestrator.run` constructs the initial
state from the raw query alone, drives it through exactly the four stages
refine_query, retrieve_data, synthesize_data, generate_report in strict
linear order with no branching, and reaches the terminal state only after
all four stages completed, returning the final state. -/
theorem orchestrator_linear_four_stages (env : Env) (q : String) :
    AgentOrchestrator.initialState q = { query := q } ∧
    AgentOrchestrator.stageTrace =
      ["refine_query", "retrieve_data", "synthesize_data", "generate_report"] ∧
    AgentOrchestrator.run env q = (do
      let s1 ← QueryRefinerAgent.execute env.refinerLLM env.jsonLoads
                 (AgentOrchestrator.initialState q)
      let s2 := RetrieverAgent.execute env s1
      let s3 ← SynthesizerAgent.execute env.synthLLM s2
      ReporterAgent.execute env.reporterLLM s3) ∧
    ∀ fin, AgentOrchestrator.run env q = .ok fin →
      ∃ s1 s3,
        QueryRefinerAgent.execute env.refinerLLM env.jsonLoads
          (AgentOrchestrator.initialState q) = .ok s1 ∧
        SynthesizerAgent.execute env.synthLLM (RetrieverAgent.execute env s1) = .ok s3 ∧
        ReporterAgent.execute env.reporterLLM s3 = .ok fin := by
  refine ⟨rfl, stageTrace_eval, run_eq_stages env q, ?_⟩
  intro fin h
  rw [run_eq_stages env q] at h
  cases hr : QueryRefinerAgent.execute env.refinerLLM env.jsonLoads
      (AgentOrchestrator.initialState q) with
  | error e => rw [hr] at h; simp [Bind.bind, Except.bind] at h
  | ok s1 =>
    rw [hr] at h
    simp only [Bind.bind, Except.bind] at h
    cases hs : SynthesizerAgent.execute env.synthLLM (RetrieverAgent.execute env s1) with
    | error e => rw [hs] at h; simp at h
    | ok s3 => rw [hs] at h; exact ⟨s1, s3, rfl, hs, h⟩

/-- A concrete deterministic environment in which every stage succeeds:
the refiner model returns non-JSON text (so the refiner falls back to its
defaults), the store returns an empty point list, and the synthesis and
report models return fixed texts. -/
def cenvOK : Env :=
  { refinerLLM := fun _ => .ok "x",
    synthLLM := fun _ => .ok "S",
    reporterLLM := fun _ => .ok "R",
    jsonLoads := fun _ => .error "Expecting value: line 1 column 1 (char 0)",
    encode := fun _ => .ok [],
    queryPoints := fun _ _ _ => .ok (.listResp []) }

/-- The final state `cenvOK` produces for the query "q". -/
def finOK : AgentState :=
  { query := "q", sender := "reporter", receiver := "user",
    refined_query := .str "q", query_intent := .str "understand",
    query_complexity := .str "medium", requires_multi_hop := .bool false,
    retrieved_chunks := [], synthesized_response := .str "S",
    final_report := .str "R",
    metadata := [("key_concepts", .list [.str "q"])] }

theorem orchestrator_linear_four_stages_witness :
    ∃ s1 s3,
      QueryRefinerAgent.execute cenvOK.refinerLLM cenvOK.jsonLoads
        (AgentOrchestrator.initialState "q") = .ok s1 ∧
      SynthesizerAgent.execute cenvOK.synthLLM (RetrieverAgent.execute cenvOK s1) = .ok s3 ∧
      ReporterAgent.execute cenvOK.reporterLLM s3 = .ok finOK :=
  (orchestrator_linear_four_stages cenvOK "q").2.2.2 finOK rfl

/-- The results of the four stages (refine, retrieve, synthesize, report)
on one run, each as `ok state` or the propagated exception. -/
def stageResults (env : Env) (q : String) :
    Except String AgentState × Except String AgentState ×
    Except String AgentState × Except String AgentState :=
  let r1 := QueryRefinerAgent.execute env.refinerLLM env.jsonLoads
              (AgentOrchestrator.initialState q)
  let r2 := r1.map (RetrieverAgent.execute env)
  let r3 := r2.bind (SynthesizerAgent.execute env.synthLLM)
  let r4 := r3.bind (ReporterAgent.execute env.reporterLLM)
  (r1, r2, r3, r4)

/-- `run` produces exactly the fourth stage result. -/
theorem run_eq_stageResults (env : Env) (q : String) :
    AgentOrchestrator.run env q = (stageResults env q).2.2.2 := by
  rw [run_eq_stages]
  unfold stageResults
  cases QueryRefinerAgent.execute env.refinerLLM env.jsonLoads
      (AgentOrchestrator.initialState q) with
  | error e => rfl
  | ok s1 =>
    cases SynthesizerAgent.execute env.synthLLM (RetrieverAgent.execute env s1) with
    | error e => rfl
    | ok s3 => rfl

/-- The sender/receiver provenance trail: the provenance pair after each
of the four stages (or the exception that interrupted the run). -/
def provenanceTrail (env : Env) (q : String) : List (Except String (String × String)) :=
  [(stageResults env q).1.map (fun s => (s.sender, s.receiver)),
   (stageResults env q).2.1.map (fun s => (s.sender, s.receiver)),
   (stageResults env q).2.2.1.map (fun s => (s.sender, s.receiver)),
   (stageResults env q).2.2.2.map (fun s => (s.sender, s.receiver))]

/-- C8: the pipeline is deterministic as a two-run property: running it
twice with the same deterministic model stub and an unchanged store (two
equal environments) yields identical results — the same refined_query,
the same retrieved_chunks contents and ordering, and the same
sender/receiver provenance at every stage. -/
theorem pipeline_two_runs_identical (env1 env2 : Env) (q : String) (h : env1 = env2) :
    AgentOrchestrator.run env1 q = AgentOrchestrator.run env2 q ∧
    (stageResults env1 q).1.map (fun s => s.refined_query) =
      (stageResults env2 q).1.map (fun s => s.refined_query) ∧
    (stageResults env1 q).2.1.map (fun s => s.retrieved_chunks) =
      (stageResults env2 q).2.1.map (fun s => s.retrieved_chunks) ∧
    provenanceTrail env1 q = provenanceTrail env2 q := by
  subst h
  exact ⟨rfl, rfl, rfl, rfl⟩

theorem pipeline_two_runs_identical_witness :
    AgentOrchestrator.run cenvOK "q" = AgentOrchestrator.run cenvOK "q" ∧
    (stageResults cenvOK "q").1.map (fun s => s.refined_query) =
      (stageResults cenvOK "q").1.map (fun s => s.refined_query) ∧
    (stageResults cenvOK "q").2.1.map (fun s => s.retrieved_chunks) =
      (stageResults cenvOK "q").2.1.map (fun s => s.retrieved_chunks) ∧
    provenanceTrail cenvOK "q" = provenanceTrail cenvOK "q" :=
  pipeline_two_runs_identical cenvOK cenvOK "q" rfl

/-- A successful refine stage changes none of `sender`, `receiver`,
`query`, `retrieved_chunks`. -/
theorem refiner_ok_frame (llm : LLMCap) (loads : JsonCap) (st r : AgentState)
    (h : QueryRefinerAgent.execute llm loads st = .ok r) :
    r.sender = st.sender ∧ r.receiver = st.receiver ∧
    r.query = st.query ∧ r.retrieved_chunks = st.retrieved_chunks := by
  unfold QueryRefinerAgent.execute at h
  cases ha : QueryRefinerAgent.analyze_query llm loads st.query with
  | error e => rw [ha] at h; simp [Bind.bind, Except.bind] at h
  | ok a =>
    rw [ha] at h
    simp only [Bind.bind, Except.bind] at h
    cases a with
    | dict kvs =>
      simp only [pure, Except.pure, Except.ok.injEq] at h
      subst h
      exact ⟨rfl, rfl, rfl, rfl⟩
    | none => simp at h
    | bool b => simp at h
    | int n => simp at h
    | float x => simp at h
    | str s => simp at h
    | list xs => simp at h

/-- A successful synthesize stage sets provenance to
synthesizer → reporter and keeps `query` and `retrieved_chunks`. -/
theorem synthesizer_ok_provenance (llm : LLMCap) (st r : AgentState)
    (h : SynthesizerAgent.execute llm st = .ok r) :
    r.sender = "synthesizer" ∧ r.receiver = "reporter" ∧
    r.query = st.query ∧ r.retrieved_chunks = st.retrieved_chunks := by
  unfold SynthesizerAgent.execute at h
  cases hs : SynthesizerAgent.synthesize llm st.query st.retrieved_chunks with
  | error e => rw [hs] at h; simp [Bind.bind, Except.bind] at h
  | ok resp =>
    rw [hs] at h
    simp only [Bind.bind, Except.bind, pure, Except.pure, Except.ok.injEq] at h
    subst h
    exact ⟨rfl, rfl, rfl, rfl⟩

/-- A successful report stage sets provenance to reporter → user and
keeps `query` and `retrieved_chunks`. -/
theorem reporter_ok_provenance (llm : LLMCap) (st r : AgentState)
    (h : ReporterAgent.execute llm st = .ok r) :
    r.sender = "reporter" ∧ r.receiver = "user" ∧
    r.query = st.query ∧ r.retrieved_chunks = st.retrieved_chunks := by
  unfold ReporterAgent.execute at h
  cases hs : ReporterAgent.generate_report llm st.query st.synthesized_response st.metadata with
  | error e => rw [hs] at h; simp [Bind.bind, Except.bind] at h
  | ok rep =>
    rw [hs] at h
    simp only [Bind.bind, Except.bind, pure, Except.pure, Except.ok.injEq] at h
    subst h
    exact ⟨rfl, rfl, rfl, rfl⟩

/-- C10: the refine stage leaves `sender`/`receiver` unchanged (still the
initial "user"/"" when run on the initial state), while the retriever,
synthesizer and reporter stages each set both fields; consequently a
completed run ends with sender = "reporter" and receiver = "user". -/
theorem provenance_frame_and_final (env : Env) (st : AgentState) (q : String) :
    (∀ r, QueryRefinerAgent.execute env.refinerLLM env.jsonLoads st = .ok r →
       r.sender = st.sender ∧ r.receiver = st.receiver) ∧
    (RetrieverAgent.execute env st).sender = "retriever" ∧
    (RetrieverAgent.execute env st).receiver = "synthesizer" ∧
    (∀ r, SynthesizerAgent.execute env.synthLLM st = .ok r →
       r.sender = "synthesizer" ∧ r.receiver = "reporter") ∧
    (∀ r, ReporterAgent.execute env.reporterLLM st = .ok r →
       r.sender = "reporter" ∧ r.receiver = "user") ∧
    (∀ r, QueryRefinerAgent.execute env.refinerLLM env.jsonLoads
        (AgentOrchestrator.initialState q) = .ok r →
       r.sender = "user" ∧ r.receiver = "") ∧
    (∀ fin, AgentOrchestrator.run env q = .ok fin →
       fin.sender = "reporter" ∧ fin.receiver = "user") := by
  refine ⟨?_, rfl, rfl, ?_, ?_, ?_, ?_⟩
  · intro r h
    exact ⟨(refiner_ok_frame _ _ _ _ h).1, (refiner_ok_frame _ _ _ _ h).2.1⟩
  · intro r h
    exact ⟨(synthesizer_ok_provenance _ _ _ h).1, (synthesizer_ok_provenance _ _ _ h).2.1⟩
  · intro r h
    exact ⟨(reporter_ok_provenance _ _ _ h).1, (reporter_ok_provenance _ _ _ h).2.1⟩
  · intro r h
    exact ⟨(refiner_ok_frame _ _ _ _ h).1, (refiner_ok_frame _ _ _ _ h).2.1⟩
  · intro fin h
    rw [run_eq_stages env q] at h
    cases hr : QueryRefinerAgent.execute env.refinerLLM env.jsonLoads
        (AgentOrchestrator.initialState q) with
    | error e => rw [hr] at h; simp [Bind.bind, Except.bind] at h
    | ok s1 =>
      rw [hr] at h
      simp only [Bind.bind, Except.bind] at h
      cases hs : SynthesizerAgent.execute env.synthLLM (RetrieverAgent.execute env s1) with
      | error e => rw [hs] at h; simp at h
      | ok s3 =>
        rw [hs] at h
        exact ⟨(reporter_ok_provenance _ _ _ h).1, (reporter_ok_provenance _ _ _ h).2.1⟩

/-- The state the refine stage produces from `initialState "q"` in `cenvOK`. -/
def s1OK : AgentState :=
  { query := "q", refined_query := .str "q", query_intent := .str "understand",
    query_complexity := .str "medium", requires_multi_hop := .bool false,
    metadata := [("key_concepts", .list [.str "q"])] }

theorem provenance_frame_and_final_witness :
    (s1OK.sender = "user" ∧ s1OK.receiver = "") ∧
    ({ finOK with synthesized_response := .str "S", sender := "synthesizer",
                  receiver := "reporter" : AgentState }.sender = "synthesizer" ∧
     { finOK with synthesized_response := .str "S", sender := "synthesizer",
                  receiver := "reporter" : AgentState }.receiver = "reporter") ∧
    ({ finOK with final_report := .str "R", sender := "reporter",
                  receiver := "user" : AgentState }.sender = "reporter" ∧
     { finOK with final_report := .str "R", sender := "reporter",
                  receiver := "user" : AgentState }.receiver = "user") ∧
    (finOK.sender = "reporter" ∧ finOK.receiver = "user") :=
  ⟨(provenance_frame_and_final cenvOK finOK "q").2.2.2.2.2.1 s1OK rfl,
   (provenance_frame_and_final cenvOK finOK "q").2.2.2.1 _ rfl,
   (provenance_frame_and_final cenvOK finOK "q").2.2.2.2.1 _ rfl,
   (provenance_frame_and_final cenvOK finOK "q").2.2.2.2.2.2 finOK rfl⟩

/-- C6: an exception from the generative-model call itself, in the
Query-Refiner, Synthesizer, or Reporter stage, is not masked: it leaves
that stage's `execute` as the same exception and propagates through the
orchestrator to the caller of `run`, with no default substituted for the
stage's result. -/
theorem llm_exception_propagates (env : Env) (q e : String) (st : AgentState) :
    (env.refinerLLM (QueryRefinerAgent.refinerPrompt q) = .error e →
       QueryRefinerAgent.analyze_query env.refinerLLM env.jsonLoads q = .error e ∧
       QueryRefinerAgent.execute env.refinerLLM env.jsonLoads
         (AgentOrchestrator.initialState q) = .error e ∧
       AgentOrchestrator.run env q = .error e) ∧
    (∀ ctx, SynthesizerAgent.format_context st.retrieved_chunks = .ok ctx →
       env.synthLLM (SynthesizerAgent.synthPrompt ctx st.query) = .error e →
       SynthesizerAgent.execute env.synthLLM st = .error e) ∧
    (env.reporterLLM (ReporterAgent.reportPrompt st.query st.synthesized_response) = .error e →
       ReporterAgent.execute env.reporterLLM st = .error e) ∧
    (∀ s1, QueryRefinerAgent.execute env.refinerLLM env.jsonLoads
        (AgentOrchestrator.initialState q) = .ok s1 →
       SynthesizerAgent.execute env.synthLLM (RetrieverAgent.execute env s1) = .error e →
       AgentOrchestrator.run env q = .error e) ∧
    (∀ s1 s3, QueryRefinerAgent.execute env.refinerLLM env.jsonLoads
        (AgentOrchestrator.initialState q) = .ok s1 →
       SynthesizerAgent.execute env.synthLLM (RetrieverAgent.execute env s1) = .ok s3 →
       ReporterAgent.execute env.reporterLLM s3 = .error e →
       AgentOrchestrator.run env q = .error e) := by
  refine ⟨?_, ?_, ?_, ?_, ?_⟩
  · intro h
    have ha : QueryRefinerAgent.analyze_query env.refinerLLM env.jsonLoads q = .error e := by
      unfold QueryRefinerAgent.analyze_query
      rw [h]
      rfl
    have he : QueryRefinerAgent.execute env.refinerLLM env.jsonLoads
        (AgentOrchestrator.initialState q) = .error e := by
      unfold QueryRefinerAgent.execute
      rw [show (AgentOrchestrator.initialState q).query = q from rfl, ha]
      rfl
    refine ⟨ha, he, ?_⟩
    rw [run_eq_stages env q, he]
    rfl
  · intro ctx hctx hllm
    unfold SynthesizerAgent.execute SynthesizerAgent.synthesize
    rw [hctx]
    show env.synthLLM (SynthesizerAgent.synthPrompt ctx st.query) >>= _ = _
    rw [hllm]
    rfl
  · intro h
    unfold ReporterAgent.execute ReporterAgent.generate_report
    rw [h]
    rfl
  · intro s1 h1 h2
    rw [run_eq_stages env q, h1]
    show SynthesizerAgent.execute env.synthLLM (RetrieverAgent.execute env s1) >>= _ = _
    rw [h2]
    rfl
  · intro s1 s3 h1 h2 h3
    rw [run_eq_stages env q, h1]
    show SynthesizerAgent.execute env.synthLLM (RetrieverAgent.execute env s1) >>= _ = _
    rw [h2]
    show ReporterAgent.execute env.reporterLLM s3 = _
    rw [h3]

/-- `cenvOK` with a refiner model whose call itself raises. -/
def cenvRefErr : Env := { cenvOK with refinerLLM := fun _ => .error "auth failure" }

/-- `cenvOK` with a synthesis model whose call itself raises. -/
def cenvSynthErr : Env := { cenvOK with synthLLM := fun _ => .error "backend down" }

/-- `cenvOK` with a report model whose call itself raises. -/
def cenvRepErr : Env := { cenvOK with reporterLLM := fun _ => .error "rate limited" }

/-- The state entering the report stage in `cenvRepErr` for query "q". -/
def s3RepErr : AgentState :=
  { query := "q", sender := "synthesizer", receiver := "reporter",
    refined_query := .str "q", query_intent := .str "understand",
    query_complexity := .str "medium", requires_multi_hop := .bool false,
    retrieved_chunks := [], synthesized_response := .str "S",
    final_report := .none, metadata := [("key_concepts", .list [.str "q"])] }

theorem llm_exception_propagates_witness :
    AgentOrchestrator.run cenvRefErr "q" = .error "auth failure" ∧
    AgentOrchestrator.run cenvSynthErr "q" = .error "backend down" ∧
    AgentOrchestrator.run cenvRepErr "q" = .error "rate limited" ∧
    SynthesizerAgent.execute cenvSynthErr.synthLLM s1OK = .error "backend down" ∧
    ReporterAgent.execute cenvRepErr.reporterLLM s3RepErr = .error "rate limited" :=
  ⟨((llm_exception_propagates cenvRefErr "q" "auth failure" s1OK).1 rfl).2.2,
   (llm_exception_propagates cenvSynthErr "q" "backend down" s1OK).2.2.2.1 s1OK rfl rfl,
   (llm_exception_propagates cenvRepErr "q" "rate limited" s1OK).2.2.2.2 s1OK s3RepErr rfl rfl rfl,
   (llm_exception_propagates cenvSynthErr "q" "backend down" s1OK).2.1 "" rfl rfl,
   (llm_exception_propagates cenvRepErr "q" "rate limited" s3RepErr).2.2.1 rfl⟩

/-- C4: every exception during embedding encoding or the vector-store
call is caught inside `get_chunks`: the chunks degrade to `[]`,
`execute` completes normally setting `retrieved_chunks = []`, and the
pipeline still reaches the report stage and finishes. -/
theorem retrieval_failure_degrades (env : Env) (q e : String) (st : AgentState)
    (hfail : RetrieverAgent.rawChunks env (RetrieverAgent.queryToUse st) = .error e) :
    RetrieverAgent.get_chunks env (RetrieverAgent.queryToUse st) = [] ∧
    RetrieverAgent.execute env st =
      { st with retrieved_chunks := [], sender := "retriever", receiver := "synthesizer" } ∧
    (∀ s1 syn rpt,
       QueryRefinerAgent.execute env.refinerLLM env.jsonLoads
         (AgentOrchestrator.initialState q) = .ok s1 →
       RetrieverAgent.rawChunks env (RetrieverAgent.queryToUse s1) = .error e →
       env.synthLLM (SynthesizerAgent.synthPrompt "" s1.query) = .ok syn →
       env.reporterLLM (ReporterAgent.reportPrompt s1.query (.str syn)) = .ok rpt →
       ∃ fin, AgentOrchestrator.run env q = .ok fin ∧
         fin.retrieved_chunks = [] ∧ fin.final_report = .str rpt) := by
  have hgc : RetrieverAgent.get_chunks env (RetrieverAgent.queryToUse st) = [] := by
    unfold RetrieverAgent.get_chunks; rw [hfail]
  refine ⟨hgc, ?_, ?_⟩
  · unfold RetrieverAgent.execute; rw [hgc]
  · intro s1 syn rpt h1 h2 h3 h4
    have hg : RetrieverAgent.get_chunks env (RetrieverAgent.queryToUse s1) = [] := by
      unfold RetrieverAgent.get_chunks; rw [h2]
    have hs2 : RetrieverAgent.execute env s1 =
        { s1 with retrieved_chunks := [], sender := "retriever", receiver := "synthesizer" } := by
      unfold RetrieverAgent.execute; rw [hg]
    have hsynth : SynthesizerAgent.synthesize env.synthLLM s1.query [] = .ok syn := by
      unfold SynthesizerAgent.synthesize
      show SynthesizerAgent.format_context [] >>= _ = _
      rw [show SynthesizerAgent.format_context [] = .ok "" from rfl]
      show env.synthLLM (SynthesizerAgent.synthPrompt "" s1.query) = _
      exact h3
    have hs3 : SynthesizerAgent.execute env.synthLLM
        { s1 with retrieved_chunks := [], sender := "retriever", receiver := "synthesizer" } =
        Except.ok ({ s1 with
                     retrieved_chunks := [], sender := "synthesizer",
                     receiver := "reporter", synthesized_response := .str syn }) := by
      unfold SynthesizerAgent.execute
      show SynthesizerAgent.synthesize env.synthLLM s1.query [] >>= _ = _
      rw [hsynth]
      rfl
    have hrep : ReporterAgent.execute env.reporterLLM
        { s1 with
          retrieved_chunks := [], sender := "synthesizer",
          receiver := "reporter", synthesized_response := .str syn } =
        Except.ok ({ s1 with
                     retrieved_chunks := [], sender := "reporter",
                     receiver := "user", synthesized_response := .str syn,
                     final_report := .str rpt }) := by
      unfold ReporterAgent.execute ReporterAgent.generate_report
      show env.reporterLLM (ReporterAgent.reportPrompt s1.query (.str syn)) >>= _ = _
      rw [h4]
      rfl
    refine ⟨{ s1 with
              retrieved_chunks := [], sender := "reporter", receiver := "user",
              synthesized_response := .str syn, final_report := .str rpt }, ?_, rfl, rfl⟩
    rw [run_eq_stages env q, h1]
    show SynthesizerAgent.execute env.synthLLM (RetrieverAgent.execute env s1) >>= _ = _
    rw [hs2, hs3]
    show ReporterAgent.execute env.reporterLLM _ = _
    rw [hrep]

/-- `cenvOK` with an embedding model whose `encode` raises (a store-side
connection error behaves identically through `rawChunks`). -/
def cenvStoreErr : Env := { cenvOK with encode := fun _ => .error "connection error" }

theorem retrieval_failure_degrades_witness :
    RetrieverAgent.get_chunks cenvStoreErr (RetrieverAgent.queryToUse s1OK) = [] ∧
    (∃ fin, AgentOrchestrator.run cenvStoreErr "q" = .ok fin ∧
       fin.retrieved_chunks = [] ∧ fin.final_report = .str "R") :=
  ⟨(retrieval_failure_degrades cenvStoreErr "q" "connection error" s1OK rfl).1,
   (retrieval_failure_degrades cenvStoreErr "q" "connection error" s1OK rfl).2.2
     s1OK "S" "R" rfl rfl rfl rfl⟩

/-- The loop keeps exactly the recognized points, wherever numbering starts. -/
theorem normalizeLoop_length (l : List Point) :
    ∀ n, (RetrieverAgent.normalizeLoop n l).length =
      l.countP RetrieverAgent.recognizedPoint := by
  induction l with
  | nil => intro n; rfl
  | cons p rest ih =>
    intro n
    unfold RetrieverAgent.normalizeLoop RetrieverAgent.normalizePoint
    by_cases hp : RetrieverAgent.recognizedPoint p
    · simp [hp, List.countP_cons, ih]
    · simp [hp, List.countP_cons, ih]

/-- Recognized and unrecognized points partition the collection. -/
theorem recognized_countP_complement (l : List Point) :
    l.countP RetrieverAgent.recognizedPoint +
      l.countP (fun p => !(RetrieverAgent.recognizedPoint p)) = l.length := by
  induction l with
  | nil => rfl
  | cons p rest ih =>
    by_cases hp : RetrieverAgent.recognizedPoint p
    · simp [List.countP_cons, hp]; omega
    · simp [List.countP_cons, hp]; omega

/-- When every point is recognized, the loop is the order-preserving map
of the conversion over the enumerated input. -/
theorem normalizeLoop_all_recognized (l : List Point) :
    ∀ n, (∀ p ∈ l, RetrieverAgent.recognizedPoint p = true) →
      RetrieverAgent.normalizeLoop n l =
        (List.enumFrom n l).map (fun ip => RetrieverAgent.chunkOf ip.1 ip.2) := by
  induction l with
  | nil => intro n _; rfl
  | cons p rest ih =>
    intro n h
    have hp : RetrieverAgent.recognizedPoint p = true := h p (List.mem_cons_self p rest)
    unfold RetrieverAgent.normalizeLoop
    simp only [RetrieverAgent.normalizePoint, hp, if_pos, List.enumFrom, List.map_cons]
    exact congrArg _ (ih (n + 1) (fun pt hpt => h pt (List.mem_cons_of_mem p hpt)))

/-- For every collection — unrecognized items included — the loop output
is exactly the in-order conversion of the recognized subsequence, each
item keeping its original enumerate index: skipping a malformed item
neither aborts the batch nor reorders the survivors. -/
theorem normalizeLoop_eq_filter_map (l : List Point) :
    ∀ n, RetrieverAgent.normalizeLoop n l =
      ((List.enumFrom n l).filter (fun ip => RetrieverAgent.recognizedPoint ip.2)).map
        (fun ip => RetrieverAgent.chunkOf ip.1 ip.2) := by
  induction l with
  | nil => intro n; rfl
  | cons p rest ih =>
    intro n
    unfold RetrieverAgent.normalizeLoop
    by_cases hp : RetrieverAgent.recognizedPoint p
    · simp [RetrieverAgent.normalizePoint, hp, List.enumFrom, List.filter_cons, ih (n + 1)]
    · simp [RetrieverAgent.normalizePoint, hp, List.enumFrom, List.filter_cons, ih (n + 1)]

/-- C5: the normalizer dispatches on the backend response shape in the
code's priority order (tuple → first element, object with points → that
attribute, plain list → itself, otherwise empty); for every resolved
collection the output length is the item count minus the unrecognized
items (one malformed item never aborts the batch), and the output order
is the input order (no re-ranking): in general the output is the
order-preserving conversion of the recognized subsequence, and when all
items are recognized it is the full order-preserving map. -/
theorem normalize_shape_dispatch_length_order :
    (∀ l rest, RetrieverAgent.normalizeResponse (.tupleResp (l :: rest)) =
       RetrieverAgent.normalizePts l) ∧
    RetrieverAgent.normalizeResponse (.tupleResp []) = [] ∧
    (∀ l, RetrieverAgent.normalizeResponse (.objResp l) = RetrieverAgent.normalizePts l) ∧
    (∀ l, RetrieverAgent.normalizeResponse (.listResp l) = RetrieverAgent.normalizePts l) ∧
    RetrieverAgent.normalizeResponse .otherResp = [] ∧
    (∀ l, (RetrieverAgent.normalizePts l).length =
       l.length - l.countP (fun p => !(RetrieverAgent.recognizedPoint p))) ∧
    (∀ l, (∀ p ∈ l, RetrieverAgent.recognizedPoint p = true) →
       RetrieverAgent.normalizePts l =
         l.enum.map (fun ip => RetrieverAgent.chunkOf ip.1 ip.2)) ∧
    (∀ l, RetrieverAgent.normalizePts l =
       (l.enum.filter (fun ip => RetrieverAgent.recognizedPoint ip.2)).map
         (fun ip => RetrieverAgent.chunkOf ip.1 ip.2)) := by
  refine ⟨fun l rest => rfl, rfl, fun l => rfl, fun l => rfl, rfl, ?_, ?_, ?_⟩
  · intro l
    have h1 := normalizeLoop_length l 0
    have h2 := recognized_countP_complement l
    unfold RetrieverAgent.normalizePts
    omega
  · intro l h
    exact normalizeLoop_all_recognized l 0 h
  · intro l
    exact normalizeLoop_eq_filter_map l 0

/-- A concrete mixed collection: a dict point, a positional tuple point,
an attribute-bearing point, and one unrecognized item. -/
def mixedPoints : List Point :=
  [.dict [("id", .int 1), ("score", .float (19/20)), ("payload", .dict [("content", .str "a")])],
   .tup [.int 2, .float (87/100), .dict [("content", .str "b")]],
   .obj { idAttr := some (.int 3), scoreAttr := some (.float 1), payloadAttr := some (.dict []) },
   .other]

/-- The first three items of `mixedPoints` (all recognized). -/
def recognizedMixed : List Point := mixedPoints.take 3

theorem normalize_shape_dispatch_length_order_witness :
    RetrieverAgent.normalizeResponse (.tupleResp [mixedPoints]) =
      RetrieverAgent.normalizePts mixedPoints ∧
    RetrieverAgent.normalizeResponse (.objResp mixedPoints) =
      RetrieverAgent.normalizePts mixedPoints ∧
    (RetrieverAgent.normalizePts mixedPoints).length =
      mixedPoints.length -
        mixedPoints.countP (fun p => !(RetrieverAgent.recognizedPoint p)) ∧
    RetrieverAgent.normalizePts recognizedMixed =
      recognizedMixed.enum.map (fun ip => RetrieverAgent.chunkOf ip.1 ip.2) ∧
    RetrieverAgent.normalizePts mixedPoints =
      (mixedPoints.enum.filter (fun ip => RetrieverAgent.recognizedPoint ip.2)).map
        (fun ip => RetrieverAgent.chunkOf ip.1 ip.2) :=
  ⟨normalize_shape_dispatch_length_order.1 mixedPoints [],
   normalize_shape_dispatch_length_order.2.2.1 mixedPoints,
   normalize_shape_dispatch_length_order.2.2.2.2.2.1 mixedPoints,
   normalize_shape_dispatch_length_order.2.2.2.2.2.2.1 recognizedMixed (by decide),
   normalize_shape_dispatch_length_order.2.2.2.2.2.2.2 mixedPoints⟩

/-- A backend point whose `payload` attribute exists but is bound to
`None`, and whose `score` attribute is a string: `getattr(point, a,
default)` passes both through unchanged. -/
def nonePayloadPoint : Point :=
  .obj { idAttr := some (.int 7), scoreAttr := some (.str "high"),
         payloadAttr := some .none }

/-- C1 counterexample: the CanonicalRecord invariant fails as stated —
a present-but-None payload (and a present non-float score) survives
normalization, so a record whose payload is not a mapping is produced. -/
theorem canonical_record_invariant_cex :
    ¬ (∀ (r : QueryResponse), ∀ c ∈ RetrieverAgent.normalizeResponse r,
        c.score.isFloat = true ∧ c.payload.isDict = true) := by
  intro h
  have hc := h (.listResp [nonePayloadPoint])
    { id := .int 7, score := .str "high", payload := .none } (List.Mem.head _)
  exact absurd hc.2 (by decide)

/-- A backend point is well-typed when its present score value is a float
and its present payload value is a mapping; absent attributes, keys or
tuple slots (which get the defaults 0.0 and the empty mapping) are fine. -/
def wellTypedPoint : Point → Bool
  | .obj o =>
      (match o.scoreAttr with | some v => v.isFloat | _ => true) &&
      (match o.payloadAttr with | some v => v.isDict | _ => true)
  | .dict kvs =>
      (match dictGet kvs "score" with | some v => v.isFloat | _ => true) &&
      (match dictGet kvs "payload" with | some v => v.isDict | _ => true)
  | .tup xs =>
      (if 1 < xs.length then (xs.getD 1 .none).isFloat else true) &&
      (if 2 < xs.length then (xs.getD 2 .none).isDict else true)
  | .other => true

/-- The conversion of a recognized, well-typed point satisfies the
record invariant. -/
theorem chunkOf_wellTyped (idx : Nat) (p : Point)
    (hr : RetrieverAgent.recognizedPoint p = true) (h : wellTypedPoint p = true) :
    (RetrieverAgent.chunkOf idx p).score.isFloat = true ∧
    (RetrieverAgent.chunkOf idx p).payload.isDict = true := by
  cases p with
  | obj o =>
    obtain ⟨ida, sa, pa⟩ := o
    cases sa <;> cases pa <;>
      simp_all [wellTypedPoint, RetrieverAgent.chunkOf, PyVal.isFloat, PyVal.isDict]
  | dict kvs =>
    cases hs : dictGet kvs "score" <;> cases hp : dictGet kvs "payload" <;>
      simp_all [wellTypedPoint, RetrieverAgent.chunkOf, PyVal.isFloat, PyVal.isDict]
  | tup xs =>
    simp only [wellTypedPoint, Bool.and_eq_true] at h
    refine ⟨?_, ?_⟩
    · show PyVal.isFloat (if 1 < xs.length then xs.getD 1 .none else .float 0) = true
      by_cases h1 : 1 < xs.length
      · rw [if_pos h1]
        have hh := h.1
        rw [if_pos h1] at hh
        exact hh
      · rw [if_neg h1]; rfl
    · show PyVal.isDict (if 2 < xs.length then xs.getD 2 .none else .dict []) = true
      by_cases h2 : 2 < xs.length
      · rw [if_pos h2]
        have hh := h.2
        rw [if_pos h2] at hh
        exact hh
      · rw [if_neg h2]; rfl
  | other => exact absurd hr (by decide)

/-- Unfolding equation of the normalization loop. -/
theorem normalizeLoop_cons (n : Nat) (p : Point) (rest : List Point) :
    RetrieverAgent.normalizeLoop n (p :: rest) =
      if RetrieverAgent.recognizedPoint p then
        RetrieverAgent.chunkOf n p :: RetrieverAgent.normalizeLoop (n + 1) rest
      else RetrieverAgent.normalizeLoop (n + 1) rest := by
  by_cases hp : RetrieverAgent.recognizedPoint p <;>
    simp [RetrieverAgent.normalizeLoop, RetrieverAgent.normalizePoint, hp]

/-- Every chunk the loop produces is the conversion of some recognized
input point. -/
theorem normalizeLoop_mem (l : List Point) :
    ∀ n c, c ∈ RetrieverAgent.normalizeLoop n l →
      ∃ i p, p ∈ l ∧ RetrieverAgent.recognizedPoint p = true ∧
        c = RetrieverAgent.chunkOf i p := by
  induction l with
  | nil => intro n c hc; simp [RetrieverAgent.normalizeLoop] at hc
  | cons p rest ih =>
    intro n c hc
    rw [normalizeLoop_cons] at hc
    by_cases hp : RetrieverAgent.recognizedPoint p
    · rw [if_pos hp] at hc
      rcases List.mem_cons.mp hc with hc | hc
      · exact ⟨n, p, List.mem_cons_self p rest, hp, hc⟩
      · obtain ⟨i, p2, hmem, hrec, hceq⟩ := ih (n + 1) c hc
        exact ⟨i, p2, List.mem_cons_of_mem p hmem, hrec, hceq⟩
    · rw [if_neg hp] at hc
      obtain ⟨i, p2, hmem, hrec, hceq⟩ := ih (n + 1) c hc
      exact ⟨i, p2, List.mem_cons_of_mem p hmem, hrec, hceq⟩

/-- C1 (amended): every record produced by the retrieval normalization
gets the defaults score = 0.0 and payload = empty mapping when the
backend item omits them; and provided every present score is a float and
every present payload is a mapping (present-but-None or ill-typed values
pass through unchanged), every output record has a float score and a
mapping payload. -/
theorem canonical_record_invariant_amended (r : QueryResponse)
    (hw : ∀ p ∈ RetrieverAgent.resolvePoints r, wellTypedPoint p = true) :
    (∀ c ∈ RetrieverAgent.normalizeResponse r,
       c.score.isFloat = true ∧ c.payload.isDict = true) ∧
    (∀ idx (o : PyObj), o.scoreAttr = Option.none →
       (RetrieverAgent.chunkOf idx (.obj o)).score = .float 0) ∧
    (∀ idx (o : PyObj), o.payloadAttr = Option.none →
       (RetrieverAgent.chunkOf idx (.obj o)).payload = .dict []) ∧
    (∀ idx kvs, dictGet kvs "score" = Option.none →
       (RetrieverAgent.chunkOf idx (.dict kvs)).score = .float 0) ∧
    (∀ idx kvs, dictGet kvs "payload" = Option.none →
       (RetrieverAgent.chunkOf idx (.dict kvs)).payload = .dict []) := by
  refine ⟨?_, ?_, ?_, ?_, ?_⟩
  · intro c hc
    obtain ⟨i, p, hmem, hrec, hceq⟩ :=
      normalizeLoop_mem (RetrieverAgent.resolvePoints r) 0 c hc
    subst hceq
    exact chunkOf_wellTyped i p hrec (hw p hmem)
  · intro idx o h; simp [RetrieverAgent.chunkOf, h]
  · intro idx o h; simp [RetrieverAgent.chunkOf, h]
  · intro idx kvs h; simp [RetrieverAgent.chunkOf, h]
  · intro idx kvs h; simp [RetrieverAgent.chunkOf, h]

theorem canonical_record_invariant_amended_witness :
    ({ id := .int 1, score := .float (19/20),
       payload := .dict [("content", .str "a")] : Chunk }.score.isFloat = true ∧
     { id := .int 1, score := .float (19/20),
       payload := .dict [("content", .str "a")] : Chunk }.payload.isDict = true) ∧
    (RetrieverAgent.chunkOf 4 (.obj { idAttr := some (.int 9), scoreAttr := Option.none,
                                      payloadAttr := Option.none })).score = .float 0 :=
  ⟨(canonical_record_invariant_amended (.listResp mixedPoints) (by decide)).1
     _ (List.Mem.head _),
   (canonical_record_invariant_amended (.listResp mixedPoints) (by decide)).2.1 4
     { idAttr := some (.int 9), scoreAttr := Option.none, payloadAttr := Option.none } rfl⟩

/-- A raw model response that is not JSON. -/
def cexRawText : String := "that is plainly not a JSON object"

/-- The message of the exception `json.loads` raises on it. -/
def cexErrMsg : String := "Expecting value: line 1 column 1 (char 0)"

/-- A model stub producing the malformed response. -/
def cexLLM : LLMCap := fun _ => .ok cexRawText

/-- A `json.loads` stub raising on every input (as the real one does on
`cexRawText`). -/
def cexLoads : JsonCap := fun _ => .error cexErrMsg

/-- C2 counterexample: on a parse failure the refiner indeed does not
raise, but the value it returns is the safe-default mapping, which
carries neither the original raw text nor the exception message. -/
theorem parse_failure_carries_text_cex :
    ¬ (∀ (llm : LLMCap) (loads : JsonCap) (q raw e : String),
        llm (QueryRefinerAgent.refinerPrompt q) = .ok raw →
        loads (QueryRefinerAgent.extractFence raw.trim) = .error e →
        ∃ v, QueryRefinerAgent.analyze_query llm loads q = .ok v ∧
          raw ∈ strLeaves v ∧ e ∈ strLeaves v) := by
  intro h
  obtain ⟨v, hv, hraw, he⟩ := h cexLLM cexLoads "q0" cexRawText cexErrMsg rfl rfl
  have heval : QueryRefinerAgent.analyze_query cexLLM cexLoads "q0" =
      .ok (QueryRefinerAgent.fallbackAnalysis "q0") := rfl
  rw [heval] at hv
  injection hv with hv2
  subst hv2
  exact absurd hraw (by decide)

/-- C2 (amended): for every raw model response text, the parse step never
raises to its caller: when strict parsing of the extracted text fails it
returns the fixed safe-default mapping (built from the original query in
the refiner, canned values in the reasoning agent); the raw text and the
exception message are only logged, not carried in the returned value. -/
theorem parse_failure_returns_defaults (llm llm2 : LLMCap) (loads loads2 : JsonCap)
    (q raw e : String) (hllm : llm (QueryRefinerAgent.refinerPrompt q) = .ok raw) :
    (∃ v, QueryRefinerAgent.analyze_query llm loads q = .ok v) ∧
    (loads (QueryRefinerAgent.extractFence raw.trim) = .error e →
       QueryRefinerAgent.analyze_query llm loads q =
         .ok (QueryRefinerAgent.fallbackAnalysis q)) ∧
    (∀ q2 chunks intent mh parts raw2 e2,
       ReasoningAgent.reasonLoop 0 chunks = .ok parts →
       llm2 (ReasoningAgent.reasoningPrompt intent mh
               (String.intercalate "\n\n" parts) q2) = .ok raw2 →
       loads2 (QueryRefinerAgent.extractFence raw2.trim) = .error e2 →
       ReasoningAgent.reason llm2 loads2 q2 chunks intent mh =
         .ok ReasoningAgent.fallbackReasoning) := by
  have hbody : QueryRefinerAgent.analyze_query llm loads q =
      (match loads (QueryRefinerAgent.extractFence raw.trim) with
       | .ok analysis => .ok analysis
       | .error _ => .ok (QueryRefinerAgent.fallbackAnalysis q)) := by
    unfold QueryRefinerAgent.analyze_query
    rw [hllm]
    rfl
  refine ⟨?_, ?_, ?_⟩
  · cases hl : loads (QueryRefinerAgent.extractFence raw.trim) with
    | ok a => exact ⟨a, by rw [hbody, hl]⟩
    | error msg => exact ⟨QueryRefinerAgent.fallbackAnalysis q, by rw [hbody, hl]⟩
  · intro hfail
    rw [hbody, hfail]
  · intro q2 chunks intent mh parts raw2 e2 hloop hllm2 hfail2
    unfold ReasoningAgent.reason
    rw [hloop]
    show llm2 (ReasoningAgent.reasoningPrompt intent mh
           (String.intercalate "\n\n" parts) q2) >>= _ = _
    rw [hllm2]
    show (match loads2 (QueryRefinerAgent.extractFence raw2.trim) with
          | .ok r => Except.ok r
          | .error _ => Except.ok ReasoningAgent.fallbackReasoning) = _
    rw [hfail2]

theorem parse_failure_returns_defaults_witness :
    QueryRefinerAgent.analyze_query cexLLM cexLoads "q0" =
      .ok (QueryRefinerAgent.fallbackAnalysis "q0") ∧
    ReasoningAgent.reason cexLLM cexLoads "q0" [] "understand" false =
      .ok ReasoningAgent.fallbackReasoning :=
  ⟨(parse_failure_returns_defaults cexLLM cexLLM cexLoads cexLoads
      "q0" cexRawText cexErrMsg rfl).2.1 rfl,
   (parse_failure_returns_defaults cexLLM cexLLM cexLoads cexLoads
      "q0" cexRawText cexErrMsg rfl).2.2 "q0" [] "understand" false []
      cexRawText cexErrMsg rfl rfl rfl⟩

/-- After `m[k] = v`, reading `k` yields `v`. -/
theorem dictGet_dictSet (m : List (String × PyVal)) (k : String) (v : PyVal) :
    dictGet (dictSet m k v) k = some v := by
  unfold dictSet
  by_cases h : (m.find? (fun kv => kv.1 = k)).isSome
  · rw [if_pos h]
    induction m with
    | nil => simp at h
    | cons a rest ih =>
      by_cases ha : a.1 = k
      · simp [dictGet, ha]
      · have h2 : (rest.find? (fun kv => kv.1 = k)).isSome := by
          rw [List.find?_cons_of_neg _ (by simp [ha])] at h
          exact h
        simp only [List.map_cons, if_neg ha]
        unfold dictGet
        rw [List.find?_cons_of_neg _ (by simp [ha])]
        exact ih h2
  · rw [if_neg h]
    unfold dictGet
    rw [List.find?_append]
    rw [Option.not_isSome_iff_eq_none] at h
    rw [h]
    simp

/-- A model stub that answers with a JSON object binding refined_query
to null. -/
def nullLLM : LLMCap := fun _ => .ok "\x7b\"refined_query\": null\x7d"

/-- `json.loads` on that text: a mapping with refined_query bound to
`None` and no other key. -/
def nullLoads : JsonCap := fun _ => .ok (.dict [("refined_query", PyVal.none)])

/-- The state the refiner produces from `initialState "q0"` under these
stubs. -/
def rNull : AgentState :=
  { query := "q0", refined_query := PyVal.none,
    query_intent := .str "understand", query_complexity := .str "medium",
    requires_multi_hop := .bool false,
    metadata := [("key_concepts", PyVal.list [])] }

/-- C3 counterexample: for a response parsing to the mapping
`\x7b"refined_query": null\x7d`, the refiner stores the present null
(so refined_query is null on exit) and defaults the missing key_concepts
to the empty list, not to `[query]` — refuting both the claimed
key_concepts default and the claimed unconditional non-nullness. -/
theorem refiner_field_defaults_cex :
    (QueryRefinerAgent.analyze_query nullLLM nullLoads "q0" =
       .ok (.dict [("refined_query", PyVal.none)]) ∧
     QueryRefinerAgent.execute nullLLM nullLoads
       (AgentOrchestrator.initialState "q0") = .ok rNull ∧
     dictGet [("refined_query", PyVal.none)] "key_concepts" = Option.none ∧
     rNull.refined_query = PyVal.none ∧
     dictGet rNull.metadata "key_concepts" = some (PyVal.list [])) ∧
    ¬ (∀ (llm : LLMCap) (loads : JsonCap) (st r : AgentState)
         (kvs : List (String × PyVal)),
        QueryRefinerAgent.analyze_query llm loads st.query = .ok (.dict kvs) →
        QueryRefinerAgent.execute llm loads st = .ok r →
        (dictGet kvs "key_concepts" = Option.none →
           dictGet r.metadata "key_concepts" = some (.list [.str st.query])) ∧
        r.refined_query ≠ PyVal.none) := by
  refine ⟨⟨rfl, rfl, rfl, rfl, rfl⟩, ?_⟩
  intro h
  obtain ⟨h1, h2⟩ := h nullLLM nullLoads (AgentOrchestrator.initialState "q0") rNull
    [("refined_query", PyVal.none)] rfl rfl
  exact h2 rfl

/-- C3 (amended): when the response parses to a mapping, each output
field is the mapping's value if the key is present (even when bound to
null, which passes through) and otherwise its safe default — where the
key_concepts default in `execute` is the empty list, not `[query]`; on
parse failure the fallback mapping is applied wholesale (there
key_concepts is `[query]`), so refined_query equals the original query,
requires_multi_hop is false, and refined_query is non-null. -/
theorem refiner_field_defaults_amended (llm : LLMCap) (loads : JsonCap) (st : AgentState) :
    (∀ kvs, QueryRefinerAgent.analyze_query llm loads st.query = .ok (.dict kvs) →
       QueryRefinerAgent.execute llm loads st = Except.ok ({ st with
         refined_query := (dictGet kvs "refined_query").getD (.str st.query),
         query_intent := (dictGet kvs "intent").getD (.str "understand"),
         query_complexity := (dictGet kvs "complexity").getD (.str "medium"),
         requires_multi_hop := (dictGet kvs "requires_multi_hop").getD (.bool false),
         metadata := dictSet st.metadata "key_concepts"
           ((dictGet kvs "key_concepts").getD (.list [])) })) ∧
    (∀ raw e, llm (QueryRefinerAgent.refinerPrompt st.query) = .ok raw →
       loads (QueryRefinerAgent.extractFence raw.trim) = .error e →
       ∃ r, QueryRefinerAgent.execute llm loads st = .ok r ∧
         r.refined_query = .str st.query ∧
         r.query_intent = .str "understand" ∧
         r.query_complexity = .str "medium" ∧
         r.requires_multi_hop = .bool false ∧
         dictGet r.metadata "key_concepts" = some (.list [.str st.query])) := by
  refine ⟨?_, ?_⟩
  · intro kvs h
    unfold QueryRefinerAgent.execute
    rw [h]
    rfl
  · intro raw e hllm hfail
    have hana : QueryRefinerAgent.analyze_query llm loads st.query =
        .ok (QueryRefinerAgent.fallbackAnalysis st.query) := by
      unfold QueryRefinerAgent.analyze_query
      rw [hllm]
      show (match loads (QueryRefinerAgent.extractFence raw.trim) with
            | .ok analysis => Except.ok analysis
            | .error _ => Except.ok (QueryRefinerAgent.fallbackAnalysis st.query)) = _
      rw [hfail]
    refine ⟨{ st with
              refined_query := .str st.query,
              query_intent := .str "understand",
              query_complexity := .str "medium",
              requires_multi_hop := .bool false,
              metadata := dictSet st.metadata "key_concepts" (.list [.str st.query]) },
            ?_, rfl, rfl, rfl, rfl, ?_⟩
    · unfold QueryRefinerAgent.execute
      rw [hana]
      rfl
    · exact dictGet_dictSet st.metadata "key_concepts" (.list [.str st.query])

theorem refiner_field_defaults_amended_witness :
    QueryRefinerAgent.execute nullLLM nullLoads (AgentOrchestrator.initialState "q0") =
      Except.ok ({ AgentOrchestrator.initialState "q0" with
        refined_query :=
          (dictGet [("refined_query", PyVal.none)] "refined_query").getD (.str "q0"),
        query_intent :=
          (dictGet [("refined_query", PyVal.none)] "intent").getD (.str "understand"),
        query_complexity :=
          (dictGet [("refined_query", PyVal.none)] "complexity").getD (.str "medium"),
        requires_multi_hop :=
          (dictGet [("refined_query", PyVal.none)] "requires_multi_hop").getD (.bool false),
        metadata := dictSet (AgentOrchestrator.initialState "q0").metadata "key_concepts"
          ((dictGet [("refined_query", PyVal.none)] "key_concepts").getD (.list [])) }) ∧
    (∃ r, QueryRefinerAgent.execute cexLLM cexLoads
        (AgentOrchestrator.initialState "q0") = .ok r ∧
      r.refined_query = .str "q0" ∧
      r.query_intent = .str "understand" ∧
      r.query_complexity = .str "medium" ∧
      r.requires_multi_hop = .bool false ∧
      dictGet r.metadata "key_concepts" = some (.list [.str "q0"])) :=
  ⟨(refiner_field_defaults_amended nullLLM nullLoads
      (AgentOrchestrator.initialState "q0")).1 [("refined_query", PyVal.none)] rfl,
   (refiner_field_defaults_amended cexLLM cexLoads
      (AgentOrchestrator.initialState "q0")).2 cexRawText cexErrMsg rfl rfl⟩

/-- If any chunk in the list carries a `None` payload, the context loop
raises (whatever index the loop starts at). -/
theorem formatLoop_err (chunks : List Chunk) :
    ∀ n, (∃ c ∈ chunks, c.payload = PyVal.none) →
      isErr (SynthesizerAgent.formatLoop n chunks) = true := by
  induction chunks with
  | nil => intro n h; simp at h
  | cons c rest ih =>
    intro n h
    by_cases hc : c.payload = PyVal.none
    · have hpc : SynthesizerAgent.payloadContent c =
          .error "AttributeError: object has no attribute get" := by
        unfold SynthesizerAgent.payloadContent
        rw [hc]
      unfold SynthesizerAgent.formatLoop
      rw [hpc]
      rfl
    · obtain ⟨c2, hmem, hpay⟩ := h
      rcases List.mem_cons.mp hmem with rfl | hmem2
      · exact absurd hpay hc
      · have hrest := ih (n + 1) ⟨c2, hmem2, hpay⟩
        unfold SynthesizerAgent.formatLoop
        cases hp : SynthesizerAgent.payloadContent c with
        | error e => rfl
        | ok t =>
          cases hr2 : SynthesizerAgent.formatLoop (n + 1) rest with
          | error e2 => rfl
          | ok parts => rw [hr2] at hrest; simp [isErr] at hrest

/-- C9: if any element of `retrieved_chunks` carries the key "payload"
bound to None — which the normalizer can produce, since
`getattr(point, 'payload', \x7b\x7d)` passes a present-but-None payload
through — then `format_context` raises calling `.get` on None, the
exception escapes `SynthesizerAgent.execute`, and the pipeline run
aborts instead of completing. -/
theorem none_payload_aborts_pipeline (st : AgentState) (llm : LLMCap) (env : Env)
    (q : String) (h : ∃ c ∈ st.retrieved_chunks, c.payload = PyVal.none) :
    isErr (SynthesizerAgent.format_context st.retrieved_chunks) = true ∧
    isErr (SynthesizerAgent.execute llm st) = true ∧
    RetrieverAgent.normalizePoint 0
      (.obj { idAttr := some (.int 1), scoreAttr := some (.float 1),
              payloadAttr := some PyVal.none }) =
      some { id := .int 1, score := .float 1, payload := PyVal.none } ∧
    (∀ s1, QueryRefinerAgent.execute env.refinerLLM env.jsonLoads
        (AgentOrchestrator.initialState q) = .ok s1 →
      (∃ c ∈ (RetrieverAgent.execute env s1).retrieved_chunks,
         c.payload = PyVal.none) →
      isErr (AgentOrchestrator.run env q) = true) := by
  have hfc : ∀ st2 : AgentState, (∃ c ∈ st2.retrieved_chunks, c.payload = PyVal.none) →
      isErr (SynthesizerAgent.format_context st2.retrieved_chunks) = true := by
    intro st2 h2
    have hl := formatLoop_err st2.retrieved_chunks 0 h2
    unfold SynthesizerAgent.format_context
    cases hr : SynthesizerAgent.formatLoop 0 st2.retrieved_chunks with
    | error e => rfl
    | ok parts => rw [hr] at hl; simp [isErr] at hl
  have hex : ∀ (llm2 : LLMCap) (st2 : AgentState),
      isErr (SynthesizerAgent.format_context st2.retrieved_chunks) = true →
      isErr (SynthesizerAgent.execute llm2 st2) = true := by
    intro llm2 st2 hfc2
    unfold SynthesizerAgent.execute SynthesizerAgent.synthesize
    cases hr : SynthesizerAgent.format_context st2.retrieved_chunks with
    | error e => rfl
    | ok ctx => rw [hr] at hfc2; simp [isErr] at hfc2
  refine ⟨hfc st h, hex llm st (hfc st h), rfl, ?_⟩
  intro s1 h1 h2
  have hserr := hex env.synthLLM (RetrieverAgent.execute env s1)
    (hfc (RetrieverAgent.execute env s1) h2)
  rw [run_eq_stages env q, h1]
  show isErr (SynthesizerAgent.execute env.synthLLM (RetrieverAgent.execute env s1) >>= _) = true
  cases hs : SynthesizerAgent.execute env.synthLLM (RetrieverAgent.execute env s1) with
  | error e => rfl
  | ok s3 => rw [hs] at hserr; simp [isErr] at hserr

/-- `cenvOK` with a store returning a point whose payload attribute is
present but None. -/
def cenvNone : Env := { cenvOK with queryPoints := fun _ _ _ => .ok (.listResp [nonePayloadPoint]) }

/-- A state whose retrieved chunks contain a None payload. -/
def stBad : AgentState :=
  { query := "q",
    retrieved_chunks := [{ id := .int 7, score := .str "high", payload := PyVal.none }] }

theorem none_payload_aborts_pipeline_witness :
    isErr (SynthesizerAgent.format_context stBad.retrieved_chunks) = true ∧
    isErr (AgentOrchestrator.run cenvNone "q") = true :=
  ⟨(none_payload_aborts_pipeline stBad cenvOK.synthLLM cenvNone "q"
      ⟨{ id := .int 7, score := .str "high", payload := PyVal.none },
       List.Mem.head _, rfl⟩).1,
   (none_payload_aborts_pipeline stBad cenvOK.synthLLM cenvNone "q"
      ⟨{ id := .int 7, score := .str "high", payload := PyVal.none },
       List.Mem.head _, rfl⟩).2.2.2 s1OK rfl
     ⟨{ id := .int 7, score := .str "high", payload := PyVal.none },
      List.Mem.head _, rfl⟩⟩
